import Mathlib

/-!
Verification development for the discord-reaction-csv-bot repository.

JavaScript strings are modelled as `List Char` (sequences of Unicode scalar
values), byte strings as `List Nat` with every element below 256.  Fallible
JavaScript code (thrown exceptions, rejected promises) is modelled with
`Option` and `Except`.  Network effects are passed in explicitly: the
upstream `fetch` transport is a parameter of the functions that use it, and
the instrumented handler traces record which upstream calls were made.
-/

namespace ReactionCsvBot

set_option maxRecDepth 10000

/-! ## UTF-8 encoding of Unicode scalar values

Models the byte-level view of JavaScript strings used by `encodeURIComponent`,
`decodeURIComponent`, `TextEncoder` and `TextDecoder`. -/

/-- UTF-8 encoding of a single Unicode scalar value, as a list of bytes. -/
def utf8Bytes (c : Char) : List Nat :=
  let n := c.toNat
  if n < 0x80 then [n]
  else if n < 0x800 then [0xC0 + n / 0x40, 0x80 + n % 0x40]
  else if n < 0x10000 then
    [0xE0 + n / 0x1000, 0x80 + n / 0x40 % 0x40, 0x80 + n % 0x40]
  else
    [0xF0 + n / 0x40000, 0x80 + n / 0x1000 % 0x40, 0x80 + n / 0x40 % 0x40,
      0x80 + n % 0x40]

/-- UTF-8 encoding of a string (the `TextEncoder` view of a JS string). -/
def utf8Encode (l : List Char) : List Nat := l.flatMap utf8Bytes

/-- One step of a strict UTF-8 decoder, with fuel.  Rejects stray or missing
continuation bytes, overlong forms, surrogate code points and values above
0x10FFFF, like `decodeURIComponent` and `TextDecoder` in strict mode do. -/
def utf8DecodeAux : Nat → List Nat → Option (List Char)
  | _, [] => some []
  | 0, _ :: _ => none
  | fuel + 1, b :: bs =>
    if b < 0x80 then
      (utf8DecodeAux fuel bs).map (Char.ofNat b :: ·)
    else if 0xC2 ≤ b ∧ b < 0xE0 then
      match bs with
      | b2 :: bs2 =>
        if 0x80 ≤ b2 ∧ b2 < 0xC0 then
          (utf8DecodeAux fuel bs2).map
            (Char.ofNat ((b - 0xC0) * 0x40 + (b2 - 0x80)) :: ·)
        else none
      | [] => none
    else if 0xE0 ≤ b ∧ b < 0xF0 then
      match bs with
      | b2 :: b3 :: bs2 =>
        let n := (b - 0xE0) * 0x1000 + (b2 - 0x80) * 0x40 + (b3 - 0x80)
        if (0x80 ≤ b2 ∧ b2 < 0xC0) ∧ (0x80 ≤ b3 ∧ b3 < 0xC0) ∧
            0x800 ≤ n ∧ (n < 0xD800 ∨ 0xDFFF < n) then
          (utf8DecodeAux fuel bs2).map (Char.ofNat n :: ·)
        else none
      | _ => none
    else if 0xF0 ≤ b ∧ b < 0xF5 then
      match bs with
      | b2 :: b3 :: b4 :: bs2 =>
        let n := (b - 0xF0) * 0x40000 + (b2 - 0x80) * 0x1000 +
          (b3 - 0x80) * 0x40 + (b4 - 0x80)
        if (0x80 ≤ b2 ∧ b2 < 0xC0) ∧ (0x80 ≤ b3 ∧ b3 < 0xC0) ∧
            (0x80 ≤ b4 ∧ b4 < 0xC0) ∧ 0x10000 ≤ n ∧ n < 0x110000 then
          (utf8DecodeAux fuel bs2).map (Char.ofNat n :: ·)
        else none
      | _ => none
    else none

/-- Strict UTF-8 decoding of a byte list.  Each decoded character consumes at
least one byte, so the length of the input is enough fuel. -/
def utf8Decode (bs : List Nat) : Option (List Char) :=
  utf8DecodeAux bs.length bs

/-! ## Percent encoding

Model of the JavaScript builtins `encodeURIComponent` / `decodeURIComponent`
used by the emoji key codec (src/src/util.js). -/

/-- Uppercase hexadecimal digit for a value below 16. -/
def hexDigitChar (n : Nat) : Char :=
  (['0', '1', '2', '3', '4', '5', '6', '7', '8', '9',
    'A', 'B', 'C', 'D', 'E', 'F']).getD n '0'

/-- Numeric value of a hexadecimal digit character, if it is one, by code
point range: digits, then uppercase and lowercase letter digits. -/
def hexVal (c : Char) : Option Nat :=
  let n := c.toNat
  if 48 ≤ n ∧ n ≤ 57 then some (n - 48)
  else if 65 ≤ n ∧ n ≤ 70 then some (n - 55)
  else if 97 ≤ n ∧ n ≤ 102 then some (n - 87)
  else none

/-- Characters that `encodeURIComponent` leaves unescaped: ASCII letters,
digits, and `- _ . ! ~ * ( )` together with the single-quote character. -/
def isUnreservedURI (c : Char) : Bool :=
  let n := c.toNat
  (65 ≤ n && n ≤ 90) || (97 ≤ n && n ≤ 122) || (48 ≤ n && n ≤ 57) ||
    (n == 45 || n == 95 || n == 46 || n == 33 || n == 126 || n == 42 ||
      n == 39 || n == 40 || n == 41)

/-- Percent-escape of a single byte, e.g. byte 32 becomes `%20`. -/
def percentByte (b : Nat) : List Char :=
  ['%', hexDigitChar (b / 16), hexDigitChar (b % 16)]

/-- Contribution of one character to the `encodeURIComponent` output:
unreserved characters stay, every other character has each byte of its UTF-8
encoding percent-escaped. -/
def percentEncodeChar (c : Char) : List Char :=
  if isUnreservedURI c then [c] else (utf8Bytes c).flatMap percentByte

/-- Model of the JavaScript builtin `encodeURIComponent`. -/
def percentEncode (l : List Char) : List Char := l.flatMap percentEncodeChar

/-- Byte-level reading of a percent-encoded string: each `%XX` escape becomes
the byte `XX`, every other character contributes its own UTF-8 bytes.
Fails on a malformed escape. -/
def percentToBytes : List Char → Option (List Nat)
  | [] => some []
  | c :: rest =>
    if c = '%' then
      match rest with
      | h1 :: h2 :: rest2 =>
        match hexVal h1, hexVal h2 with
        | some v1, some v2 =>
          (percentToBytes rest2).map (fun bs => (16 * v1 + v2) :: bs)
        | _, _ => none
      | _ => none
    else (percentToBytes rest).map (fun bs => utf8Bytes c ++ bs)

/-- Model of the JavaScript builtin `decodeURIComponent`: read the escapes
back into bytes, then UTF-8 decode the byte list. -/
def percentDecode (l : List Char) : Option (List Char) :=
  (percentToBytes l).bind utf8Decode

/-! ## Emoji key codec (src/src/util.js, encodedEmojiKey / readableEmojiKey) -/

/-- Emoji descriptor: a unicode glyph or a platform-custom emoji.  The data
model invariant is that `animated = true` only occurs with an id present. -/
structure EmojiDescriptor where
  name : List Char
  id : Option (List Char) := none
  animated : Bool := false
deriving DecidableEq, Repr

/-- Embeds `encodedEmojiKey` from src/src/util.js:
`(animated ? a-colon : empty) + encodeURIComponent(name) + (id ? colon + id : empty)`.
JS truthiness of `id` means a present but empty id string behaves like an
absent one. -/
def encodedEmojiKey (e : EmojiDescriptor) : List Char :=
  (if e.animated then ['a', ':'] else []) ++ percentEncode e.name ++
    (match e.id with
     | some i => if i.isEmpty then [] else ':' :: i
     | none => [])

/-- Embeds `readableEmojiKey` from src/src/util.js:
`id ? encodedEmojiKey(emojiObj) : name`. -/
def readableEmojiKey (e : EmojiDescriptor) : List Char :=
  match e.id with
  | some i => if i.isEmpty then e.name else encodedEmojiKey e
  | none => e.name

/-! ## CSV encoder (src/src/util.js, csvQuote / CsvBuilder) -/

/-- Scalar cell values fed to the CSV encoder, with the natural JS string
conversion of each.  `obj` stands for a plain object, whose default
`toString` yields the usual object placeholder string. -/
inductive CellValue where
  | str (s : List Char)
  | num (n : Nat)
  | obj
deriving DecidableEq, Repr

/-- Decimal digit characters of a natural number (JS `Number.prototype.toString`
restricted to the naturals used here), via a fuel-based loop. -/
def decimalCharsAux : Nat → Nat → List Char → List Char
  | 0, _, acc => acc
  | fuel + 1, n, acc =>
    if n < 10 then Char.ofNat (48 + n) :: acc
    else decimalCharsAux fuel (n / 10) (Char.ofNat (48 + n % 10) :: acc)

/-- Decimal representation of a natural number as characters. -/
def decimalChars (n : Nat) : List Char := decimalCharsAux (n + 1) n []

/-- The JS `toString` conversion applied by `csvQuote` to its argument. -/
def cellToString : CellValue → List Char
  | .str s => s
  | .num n => decimalChars n
  | .obj => ('[' :: ('o' :: 'b' :: 'j' :: 'e' :: 'c' :: 't' :: ' ' ::
      'O' :: 'b' :: 'j' :: 'e' :: 'c' :: 't' :: []) ) ++ [']']

/-- The regular expression test of csvQuote: does the string contain a
double quote, a comma or a line feed. -/
def testSpecial (l : List Char) : Bool :=
  l.any (fun c => c = '"' || c = ',' || c = '\n')

/-- The `replaceAll` step of csvQuote: double every double-quote character. -/
def doubleQuotes : List Char → List Char
  | [] => []
  | c :: cs => if c = '"' then '"' :: '"' :: doubleQuotes cs
    else c :: doubleQuotes cs

/-- Embeds `csvQuote` from src/src/util.js on the stringified value: quote and
double embedded quotes when the string contains a quote, comma or line feed,
otherwise return it verbatim. -/
def csvQuote (l : List Char) : List Char :=
  if testSpecial l then '"' :: doubleQuotes l ++ ['"'] else l

/-- csvQuote applied to a raw cell value, stringifying first as the source
does with `val.toString()`. -/
def csvQuoteCell (v : CellValue) : List Char := csvQuote (cellToString v)

/-- Rendering of one CSV row: quoted cells joined by commas, then a line feed,
as in `CsvBuilder.addLine`. -/
def csvLine (line : List CellValue) : List Char :=
  List.intercalate [','] (line.map csvQuoteCell) ++ ['\n']

/-- State of a `CsvBuilder` after construction: the optional header row is
added immediately (the constructor guards on JS truthiness, and a present
header array is always truthy). -/
def csvInit (header : Option (List CellValue)) : List Char :=
  match header with
  | some h => csvLine h
  | none => []

/-- Embeds `CsvBuilder.addLine`: append the rendered row to the accumulated
document text. -/
def csvAddLine (csv : List Char) (line : List CellValue) : List Char :=
  csv ++ csvLine line

/-- The document `build()` returns after constructing the builder with the
given header and calling `addLine` once per element of `lines` in order. -/
def csvBuild (header : Option (List CellValue)) (lines : List (List CellValue)) :
    List Char :=
  lines.foldl csvAddLine (csvInit header)

/-! ## Reaction user list fetcher (src/src/commands.js, ReactionUserListFetcher) -/

/-- A user reference as returned by the upstream reaction list endpoint. -/
structure UserRef where
  id : List Char
  username : List Char
deriving DecidableEq, Repr

/-- Errors that a fetch can reject with.  `thrown` is an `Error` with the
given message; `typeError` a TypeError raised by the runtime; `network` an
opaque transport-level failure of the underlying `fetch` call; `jsonReject`
a rejection of `res.json()`. -/
inductive JsError where
  | network (msg : List Char)
  | thrown (msg : List Char)
  | typeError (msg : List Char)
  | jsonReject
deriving DecidableEq, Repr

/-- The observable parts of an upstream HTTP response used by the fetcher. -/
structure HttpResponse where
  ok : Bool
  status : Nat
  bodyText : List Char
  jsonUsers : Option (List UserRef)
deriving DecidableEq, Repr

/-- Outcome of the underlying transport for one upstream call: the promise
either rejects (network failure) or resolves; `resolve none` models the
transport handing back a falsy value instead of a response object. -/
inductive Transport where
  | reject (e : JsError)
  | resolve (r : Option HttpResponse)
deriving DecidableEq, Repr

/-- Message text of the error thrown on a non-ok response:
`HTTP <status> error: <body text>`. -/
def httpErrorMessage (status : Nat) (body : List Char) : List Char :=
  ('H' :: 'T' :: 'T' :: 'P' :: ' ' :: []) ++ decimalChars status ++
    (' ' :: 'e' :: 'r' :: 'r' :: 'o' :: 'r' :: ':' :: ' ' :: []) ++ body

/-- The TypeError message the runtime raises when the code calls a method of
the boxed falsy primitive. -/
def resTextNotAFunction : List Char :=
  ('r' :: 'e' :: 's' :: '.' :: 't' :: 'e' :: 'x' :: 't' ::
    ' ' :: 'i' :: 's' :: ' ' :: 'n' :: 'o' :: 't' :: ' ' :: 'a' :: ' ' ::
    'f' :: 'u' :: 'n' :: 'c' :: 't' :: 'i' :: 'o' :: 'n' :: [])

/-- Embeds `ReactionUserListFetcher.fetch` from src/src/commands.js, given the
transport outcome for the call:
a transport rejection propagates as-is; a response with `ok` false throws an
`Error` carrying the status and the body text; otherwise the parsed JSON body
is returned.  When the transport resolves to a falsy value, reading `res.ok`
on the boxed primitive yields `undefined`, so the not-ok branch is taken, and
evaluating `res.text()` while building the error message raises a TypeError
before the `HTTP ... error` message can be thrown. -/
def fetcherFetch (t : Transport) : Except JsError (List UserRef) :=
  match t with
  | .reject e => .error e
  | .resolve none => .error (.typeError resTextNotAFunction)
  | .resolve (some r) =>
    if !r.ok then .error (.thrown (httpErrorMessage r.status r.bodyText))
    else
      match r.jsonUsers with
      | some users => .ok users
      | none => .error .jsonReject

/-- Does a character list contain the five letters of the word falsy in a
row?  Used to state what the repository test suite expects of the falsy
response error. -/
def mentionsFalsy : List Char → Bool
  | 'f' :: 'a' :: 'l' :: 's' :: 'y' :: _ => true
  | _ :: rest => mentionsFalsy rest
  | [] => false

/-- The message carried by a `JsError`, for matching against test regexes. -/
def jsErrorMessage : JsError → List Char
  | .network msg => msg
  | .thrown msg => msg
  | .typeError msg => msg
  | .jsonReject => []

/-! ## Request authentication (src/unnamed/part_000, discordMiddleware) -/

/-- Hex decoding of an even-length hex string into bytes; fails on a non-hex
character or odd length. -/
def hexDecodePairs : List Char → Option (List Nat)
  | [] => some []
  | [_] => none
  | h1 :: h2 :: rest =>
    match hexVal h1, hexVal h2 with
    | some v1, some v2 => (hexDecodePairs rest).map ((16 * v1 + v2) :: ·)
    | _, _ => none

/-- Modelled from the spec: `verifyKey` of the discord-interactions library is
imported, not part of src/.  Per the spec contract it returns false, never
throwing, when either header is missing or empty, when the signature hex
cannot be decoded, or when the public-key verification algorithm rejects the
signature over the UTF-8 bytes of the timestamp string followed by the raw
body bytes.  The verification algorithm itself is the abstract parameter
`crypto`, taking the public key bytes, the signature bytes and the message
bytes. -/
def verifyKey (crypto : List Nat → List Nat → List Nat → Bool)
    (rawBody : List Nat) (signature timestamp publicKey : List Char) : Bool :=
  if signature.isEmpty || timestamp.isEmpty then false
  else
    match hexDecodePairs signature, hexDecodePairs publicKey with
    | some sig, some pk => crypto pk sig (utf8Encode timestamp ++ rawBody)
    | _, _ => false

/-- An inbound POST request as the middleware sees it: raw body bytes and the
two optional signature headers. -/
structure InboundRequest where
  rawBody : List Nat
  sigHeader : Option (List Char)
  tsHeader : Option (List Char)

/-- Interaction types from discord-interactions used by the server. -/
def PING : Nat := 1
/-- Interaction type APPLICATION_COMMAND. -/
def APPLICATION_COMMAND : Nat := 2

/-- What the middleware decides for a request.  `routerError` is a response
produced by the AutoRouter catch handler after the middleware threw: the
itty-router error helper turns a plain exception into a response whose status
is 500. -/
inductive MwResult where
  | unauthorized
  | pong
  | routerError (status : Nat)
  | proceed (interactionType : Option Nat)
deriving DecidableEq, Repr

/-- Instrumented result of the middleware: what it decided, plus the list of
`(rawBody, signature, timestamp)` argument triples `server.verifyKey` was
invoked with while handling the request. -/
structure MwTrace where
  result : MwResult
  verifyCalls : List (List Nat × List Char × List Char)
deriving DecidableEq, Repr

/-- Embeds `discordMiddleware` from src/unnamed/part_000: read the headers
with a fallback to the empty string, call `server.verifyKey` on the raw body,
return the 401 response when it rejects, then `JSON.parse` the body (a parse
failure escapes to the AutoRouter catch handler, which answers 500), answer
PONG to a PING interaction and otherwise hand the parsed interaction on.
`parse` abstracts `JSON.parse` composed with reading the type field: `none`
models a parse exception; a parsed falsy body is replaced by an empty object,
which this model folds into `parse` returning `some none`. -/
def discordMiddleware (crypto : List Nat → List Nat → List Nat → Bool)
    (publicKey : List Char) (parse : List Nat → Option (Option Nat))
    (req : InboundRequest) : MwTrace :=
  let signature := req.sigHeader.getD []
  let timestamp := req.tsHeader.getD []
  let calls := [(req.rawBody, signature, timestamp)]
  if verifyKey crypto req.rawBody signature timestamp publicKey = false then
    { result := .unauthorized, verifyCalls := calls }
  else
    match parse req.rawBody with
    | none => { result := .routerError 500, verifyCalls := calls }
    | some ty =>
      if ty = some PING then { result := .pong, verifyCalls := calls }
      else { result := .proceed ty, verifyCalls := calls }

/-- Is a status code in the 4xx class. -/
def is4xx (status : Nat) : Bool := 400 ≤ status && status < 500

/-! ## Reaction aggregation (src/unnamed/part_000, REACTION_CSV command case) -/

/-- One reaction summary of the message payload: the emoji descriptor and the
number of users who reacted with it. -/
structure ReactionSummary where
  emoji : EmojiDescriptor
  count : Nat
deriving DecidableEq, Repr

/-- The part of a resolved message the handler uses.  `reactions := none`
models a message object without a reactions field. -/
structure MessagePayload where
  reactions : Option (List ReactionSummary)
deriving DecidableEq, Repr

/-- The data object of a REACTION_CSV application-command interaction. -/
structure InteractionData where
  resolved : Option (List (List Char × MessagePayload))
  targetId : Option (List Char)
deriving DecidableEq, Repr

/-- Embeds the message lookup
`data?.resolved?.messages?.[data?.target_id]`: undefined when the resolved
map or the target id is missing, or when the key is not in the map. -/
def lookupMessage (d : InteractionData) : Option MessagePayload :=
  match d.resolved with
  | none => none
  | some msgs =>
    match d.targetId with
    | none => none
    | some tid => (msgs.find? (fun p => p.1 = tid)).map (fun p => p.2)

/-- Stable insertion of a reaction into a list already sorted by descending
count: the new element goes in front of the first element whose count does
not exceed it.  Elements of the sorted tail came later in the original order,
so ties keep the original order. -/
def insertReaction (r : ReactionSummary) :
    List ReactionSummary → List ReactionSummary
  | [] => [r]
  | x :: xs => if x.count ≤ r.count then r :: x :: xs
    else x :: insertReaction r xs

/-- The in-place `reactions.sort((a, b) => b.count - a.count)` of the source:
a stable sort by descending count (ECMAScript `Array.prototype.sort` is
specified to be stable, and the comparator orders by count descending). -/
def sortReactions : List ReactionSummary → List ReactionSummary
  | [] => []
  | r :: rs => insertReaction r (sortReactions rs)

/-- The sort followed by the in-place truncation
`if (reactions.length > 30) reactions.length = 30`. -/
def sortTruncate (rs : List ReactionSummary) : List ReactionSummary :=
  (sortReactions rs).take 30

/-- Join of `Promise.all` over already-settled per-emoji results: the whole
aggregation fails with the first rejection, otherwise all pairs are kept in
order. -/
def collectAll {α β : Type} :
    List (α × Except JsError β) → Except JsError (List (α × β))
  | [] => .ok []
  | (_, .error e) :: _ => .error e
  | (k, .ok v) :: rest => (collectAll rest).map ((k, v) :: ·)

/-- The response value the handler returns for the REACTION_CSV case:
either an ephemeral channel message with the given content, or the modal
carrying the CSV text. -/
inductive HandlerOutput where
  | channelMessage (content : List Char) (ephemeral : Bool)
  | modal (csvText : List Char)
deriving DecidableEq, Repr

/-- Instrumented run of the REACTION_CSV case: the returned response, the
emojis for which an upstream fetch was started, and the reactions array of
the message payload after the handler ran (the source sorts and truncates it
in place). -/
structure HandlerTrace where
  output : HandlerOutput
  fetchedEmojis : List EmojiDescriptor
  finalReactions : Option (List ReactionSummary)
deriving DecidableEq, Repr

/-- Content of the fixed no-reactions response. -/
def noReactionsContent : List Char :=
  'n' :: 'o' :: ' ' :: 'r' :: 'e' :: 'a' :: 'c' :: 't' :: 'i' :: 'o' :: 'n' ::
    's' :: ' ' :: 'f' :: 'o' :: 'u' :: 'n' :: 'd' :: []

/-- Content of the fixed failure response. -/
def somethingWentWrong : List Char :=
  's' :: 'o' :: 'm' :: 'e' :: 't' :: 'h' :: 'i' :: 'n' :: 'g' :: ' ' :: 'w' ::
    'e' :: 'n' :: 't' :: ' ' :: 'w' :: 'r' :: 'o' :: 'n' :: 'g' :: []

/-- The CSV header row used by the aggregation. -/
def csvHeader : List CellValue :=
  [.str ('e' :: 'm' :: 'o' :: 'j' :: 'i' :: []),
   .str ('d' :: 'i' :: 's' :: 'c' :: 'o' :: 'r' :: 'd' :: 'U' :: 's' :: 'e' ::
     'r' :: 'I' :: 'd' :: []),
   .str ('d' :: 'i' :: 's' :: 'c' :: 'o' :: 'r' :: 'd' :: 'U' :: 's' :: 'e' ::
     'r' :: 'N' :: 'a' :: 'm' :: 'e' :: [])]

/-- The data rows built from the joined responses: one row per (emoji, user)
pair, in response order and, per emoji, upstream user order. -/
def aggregationRows (pairs : List (List Char × List UserRef)) :
    List (List CellValue) :=
  pairs.flatMap (fun p =>
    p.2.map (fun u => [CellValue.str p.1, CellValue.str u.id,
      CellValue.str u.username]))

/-- Embeds the REACTION_CSV case of the POST handler in src/unnamed/part_000.
`fetchFn` gives the settled result of `fetcher.fetch` per emoji (the fetches
are all started before the `Promise.all` join, so every surviving emoji is
fetched).  The message is looked up from the interaction data; a missing
message, a missing reactions field or an empty reactions array short-circuits
to the fixed ephemeral no-reactions response with no fetch started.
Otherwise the reactions array is sorted by descending count and truncated to
30 in place, one fetch per surviving reaction is started, and the joined
results are either merged into the CSV modal or collapsed to the fixed
ephemeral failure message if any fetch rejected. -/
def reactionCsvCase (fetchFn : EmojiDescriptor → Except JsError (List UserRef))
    (d : InteractionData) : HandlerTrace :=
  match lookupMessage d with
  | none =>
    { output := .channelMessage noReactionsContent true, fetchedEmojis := [],
      finalReactions := none }
  | some m =>
    match m.reactions with
    | none =>
      { output := .channelMessage noReactionsContent true, fetchedEmojis := [],
        finalReactions := none }
    | some [] =>
      { output := .channelMessage noReactionsContent true, fetchedEmojis := [],
        finalReactions := some [] }
    | some (r0 :: rs0) =>
      let sorted := sortTruncate (r0 :: rs0)
      let results := sorted.map (fun x =>
        (readableEmojiKey x.emoji, fetchFn x.emoji))
      match collectAll results with
      | .error _ =>
        { output := .channelMessage somethingWentWrong true,
          fetchedEmojis := sorted.map (fun x => x.emoji),
          finalReactions := some sorted }
      | .ok pairs =>
        { output := .modal (csvBuild (some csvHeader) (aggregationRows pairs)),
          fetchedEmojis := sorted.map (fun x => x.emoji),
          finalReactions := some sorted }

/-! ## Concrete fixtures used by witnesses and counterexamples -/

/-- A verification algorithm accepting everything, for concrete runs. -/
def cryptoAccept : List Nat → List Nat → List Nat → Bool := fun _ _ _ => true

/-- A body parse that always fails, for concrete runs. -/
def parseNone : List Nat → Option (Option Nat) := fun _ => none

/-- A request carrying neither signature header. -/
def reqNoHeaders : InboundRequest :=
  { rawBody := [], sigHeader := none, tsHeader := none }

/-- A request carrying both signature headers with decodable hex. -/
def reqSigned : InboundRequest :=
  { rawBody := [123], sigHeader := some ('0' :: '0' :: []),
    tsHeader := some ('1' :: []) }

/-- A fetch returning one fixed user for every emoji. -/
def fetchOne : EmojiDescriptor → Except JsError (List UserRef) :=
  fun _ => .ok [{ id := "1000".data, username := "myname".data }]

/-- The synthetic reaction with count `n` and emoji name `e<n>`. -/
def reaction34 (n : Nat) : ReactionSummary :=
  { emoji := { name := 'e' :: decimalChars n }, count := n }

/-- Thirty-four synthetic reactions with counts 1..34 in ascending order. -/
def input34 : List ReactionSummary :=
  (List.range 34).map (fun i => reaction34 (i + 1))

/-- Interaction data resolving to a message holding `input34`. -/
def d34 : InteractionData :=
  { resolved := some [("1000".data, { reactions := some input34 })],
    targetId := some "1000".data }

/-- The thirty expected data rows for the `input34` aggregation: counts 34
down to 5, one fixed user each. -/
def expectedRows34 : List (List CellValue) :=
  (List.range 30).map (fun k =>
    [.str ('e' :: decimalChars (34 - k)), .str "1000".data,
      .str "myname".data])

/-- A reaction with count 1 on emoji `a`. -/
def rA : ReactionSummary := { emoji := { name := ['a'] }, count := 1 }

/-- A reaction with count 2 on emoji `b`. -/
def rB : ReactionSummary := { emoji := { name := ['b'] }, count := 2 }

/-- Interaction data resolving to a message whose reactions array is
`[rA, rB]` (ascending counts, so the sort must reorder it). -/
def dAB : InteractionData :=
  { resolved := some [("7".data, { reactions := some [rA, rB] })],
    targetId := some "7".data }

/-- A fetch that rejects for emoji `b` and succeeds for every other emoji. -/
def fetchFailB : EmojiDescriptor → Except JsError (List UserRef) :=
  fun e => if e.name = ['b'] then .error (.network "boom".data)
    else .ok [{ id := "1".data, username := "u".data }]

/-- Interaction data with no resolved messages map. -/
def dNoResolved : InteractionData :=
  { resolved := none, targetId := some "7".data }

/-- A descriptor with no id: a name containing a space and an astral glyph. -/
def sampleEmoji : EmojiDescriptor :=
  { name := 'h' :: 'i' :: ' ' :: [Char.ofNat 0x1F60A] }

/-- A completed upstream response with a non-success status. -/
def resp404 : HttpResponse :=
  { ok := false, status := 404, bodyText := "sekrit".data, jsonUsers := none }

/-! ## Round-trip lemmas for the percent encoding -/

theorem one_le_utf8Bytes_length (c : Char) : 1 ≤ (utf8Bytes c).length := by
  by_cases h1 : c.toNat < 0x80
  · simp [utf8Bytes, h1]
  · by_cases h2 : c.toNat < 0x800
    · simp [utf8Bytes, h1, h2]
    · by_cases h3 : c.toNat < 0x10000 <;> simp [utf8Bytes, h1, h2, h3]

theorem utf8Bytes_lt_256 (c : Char) : ∀ b ∈ utf8Bytes c, b < 256 := by
  have hv : c.toNat < 0xD800 ∨ (0xDFFF < c.toNat ∧ c.toNat < 0x110000) := c.valid
  intro b hb
  by_cases h1 : c.toNat < 0x80
  · simp [utf8Bytes, h1] at hb; omega
  · by_cases h2 : c.toNat < 0x800
    · simp [utf8Bytes, h1, h2] at hb
      rcases hb with hb | hb <;> omega
    · by_cases h3 : c.toNat < 0x10000
      · simp [utf8Bytes, h1, h2, h3] at hb
        rcases hb with hb | hb | hb <;> omega
      · simp [utf8Bytes, h1, h2, h3] at hb
        rcases hb with hb | hb | hb | hb <;> omega

theorem utf8DecodeAux_bytes (c : Char) (rest : List Nat) (fuel : Nat) :
    utf8DecodeAux (fuel + 1) (utf8Bytes c ++ rest) =
      (utf8DecodeAux fuel rest).map (c :: ·) := by
  have hv : c.toNat < 0xD800 ∨ (0xDFFF < c.toNat ∧ c.toNat < 0x110000) := c.valid
  have hofn := Char.ofNat_toNat c
  by_cases h1 : c.toNat < 0x80
  · have hb : utf8Bytes c = [c.toNat] := by simp [utf8Bytes, h1]
    rw [hb, List.singleton_append]
    simp [utf8DecodeAux, h1, hofn]
  · by_cases h2 : c.toNat < 0x800
    · have hb : utf8Bytes c = [0xC0 + c.toNat / 0x40, 0x80 + c.toNat % 0x40] := by
        simp [utf8Bytes, h1, h2]
      rw [hb, List.cons_append, List.singleton_append]
      have c1 : ¬ (0xC0 + c.toNat / 0x40 < 0x80) := by omega
      have c2 : 0xC2 ≤ 0xC0 + c.toNat / 0x40 ∧ 0xC0 + c.toNat / 0x40 < 0xE0 := by
        omega
      have c3 : 0x80 ≤ 0x80 + c.toNat % 0x40 ∧ 0x80 + c.toNat % 0x40 < 0xC0 := by
        omega
      have c4 : c.toNat / 0x40 * 0x40 + c.toNat % 0x40 = c.toNat := by omega
      simp [utf8DecodeAux, c1, c2, c3, c4, hofn]
    · by_cases h3 : c.toNat < 0x10000
      · have hb : utf8Bytes c = [0xE0 + c.toNat / 0x1000,
            0x80 + c.toNat / 0x40 % 0x40, 0x80 + c.toNat % 0x40] := by
          simp [utf8Bytes, h1, h2, h3]
        rw [hb, List.cons_append, List.cons_append, List.singleton_append]
        have c1 : ¬ (0xE0 + c.toNat / 0x1000 < 0x80) := by omega
        have c2 : ¬ (0xC2 ≤ 0xE0 + c.toNat / 0x1000 ∧
            0xE0 + c.toNat / 0x1000 < 0xE0) := by omega
        have c3 : 0xE0 ≤ 0xE0 + c.toNat / 0x1000 ∧
            0xE0 + c.toNat / 0x1000 < 0xF0 := by omega
        have c4 : c.toNat / 0x1000 * 0x1000 + c.toNat / 0x40 % 0x40 * 0x40 +
            c.toNat % 0x40 = c.toNat := by omega
        have c5 : 0x800 ≤ c.toNat := by omega
        have c6 : c.toNat < 0xD800 ∨ 0xDFFF < c.toNat := by omega
        simp [utf8DecodeAux, c1, c2, c3, c4, c5, c6, hofn]
        intro hcontra
        exact absurd (hcontra (by omega)) (by omega)
      · have h4 : c.toNat < 0x110000 := by omega
        have hb : utf8Bytes c = [0xF0 + c.toNat / 0x40000,
            0x80 + c.toNat / 0x1000 % 0x40, 0x80 + c.toNat / 0x40 % 0x40,
            0x80 + c.toNat % 0x40] := by
          simp [utf8Bytes, h1, h2, h3]
        rw [hb, List.cons_append, List.cons_append, List.cons_append,
          List.singleton_append]
        have c1 : ¬ (0xF0 + c.toNat / 0x40000 < 0x80) := by omega
        have c2 : ¬ (0xC2 ≤ 0xF0 + c.toNat / 0x40000 ∧
            0xF0 + c.toNat / 0x40000 < 0xE0) := by omega
        have c3 : ¬ (0xE0 ≤ 0xF0 + c.toNat / 0x40000 ∧
            0xF0 + c.toNat / 0x40000 < 0xF0) := by omega
        have c4 : 0xF0 ≤ 0xF0 + c.toNat / 0x40000 ∧
            0xF0 + c.toNat / 0x40000 < 0xF5 := by omega
        have c5 : c.toNat / 0x40000 * 0x40000 + c.toNat / 0x1000 % 0x40 * 0x1000 +
            c.toNat / 0x40 % 0x40 * 0x40 + c.toNat % 0x40 = c.toNat := by omega
        have c6 : 0x10000 ≤ c.toNat := by omega
        simp [utf8DecodeAux, c1, c2, c3, c4, c5, c6, h4, hofn]
        intro hcontra
        exact absurd (hcontra (by omega) (by omega)) (by omega)

theorem length_le_utf8Encode (l : List Char) :
    l.length ≤ (utf8Encode l).length := by
  induction l with
  | nil => simp [utf8Encode]
  | cons c l2 ih =>
    have h1 := one_le_utf8Bytes_length c
    simp only [utf8Encode, List.flatMap_cons, List.length_append,
      List.length_cons] at *
    omega

theorem utf8DecodeAux_encode (l : List Char) :
    ∀ fuel, l.length ≤ fuel → utf8DecodeAux fuel (utf8Encode l) = some l := by
  induction l with
  | nil => intro fuel _; simp only [utf8Encode, List.flatMap_nil]; cases fuel <;> rfl
  | cons c l2 ih =>
    intro fuel hf
    match fuel, hf with
    | fuel2 + 1, hf =>
      have : utf8Encode (c :: l2) = utf8Bytes c ++ utf8Encode l2 := by
        simp [utf8Encode]
      rw [this, utf8DecodeAux_bytes, ih fuel2 (by simpa using hf)]
      rfl

theorem utf8Decode_encode (l : List Char) : utf8Decode (utf8Encode l) = some l :=
  utf8DecodeAux_encode l (utf8Encode l).length (length_le_utf8Encode l)

theorem hexVal_hexDigitChar (n : Nat) (h : n < 16) :
    hexVal (hexDigitChar n) = some n := by
  interval_cases n <;> rfl

theorem percentToBytes_percentByte (b : Nat) (hb : b < 256) (rest : List Char) :
    percentToBytes (percentByte b ++ rest) =
      (percentToBytes rest).map (b :: ·) := by
  show percentToBytes ('%' :: hexDigitChar (b / 16) :: hexDigitChar (b % 16) :: rest) = _
  rw [percentToBytes]
  have h1 : hexVal (hexDigitChar (b / 16)) = some (b / 16) :=
    hexVal_hexDigitChar _ (by omega)
  have h2 : hexVal (hexDigitChar (b % 16)) = some (b % 16) :=
    hexVal_hexDigitChar _ (by omega)
  have h3 : 16 * (b / 16) + b % 16 = b := by omega
  simp [h1, h2, h3]

theorem percentToBytes_run (bs : List Nat) (hbs : ∀ b ∈ bs, b < 256)
    (rest : List Char) :
    percentToBytes (bs.flatMap percentByte ++ rest) =
      (percentToBytes rest).map (bs ++ ·) := by
  induction bs with
  | nil => simp
  | cons b bs2 ih =>
    have hb : b < 256 := hbs b (by simp)
    have hbs2 : ∀ x ∈ bs2, x < 256 := fun x hx => hbs x (by simp [hx])
    rw [List.flatMap_cons, List.append_assoc, percentToBytes_percentByte b hb,
      ih hbs2]
    cases percentToBytes rest <;> rfl

theorem isUnreservedURI_ne_percent (c : Char) (h : isUnreservedURI c = true) :
    ¬ c = '%' := by
  intro hc
  subst hc
  simp [isUnreservedURI] at h

theorem percentToBytes_encodeChar (c : Char) (rest : List Char) :
    percentToBytes (percentEncodeChar c ++ rest) =
      (percentToBytes rest).map (utf8Bytes c ++ ·) := by
  by_cases h : isUnreservedURI c
  · have he : percentEncodeChar c = [c] := by simp [percentEncodeChar, h]
    rw [he, List.singleton_append, percentToBytes.eq_def]
    simp [isUnreservedURI_ne_percent c h]
  · have he : percentEncodeChar c = (utf8Bytes c).flatMap percentByte := by
      simp [percentEncodeChar, h]
    rw [he, percentToBytes_run (utf8Bytes c) (utf8Bytes_lt_256 c)]

theorem percentToBytes_percentEncode (l : List Char) :
    percentToBytes (percentEncode l) = some (utf8Encode l) := by
  induction l with
  | nil => rfl
  | cons c l2 ih =>
    have he : percentEncode (c :: l2) = percentEncodeChar c ++ percentEncode l2 := by
      simp [percentEncode]
    rw [he, percentToBytes_encodeChar, ih]
    simp [utf8Encode]

theorem percentDecode_percentEncode (l : List Char) :
    percentDecode (percentEncode l) = some l := by
  rw [percentDecode, percentToBytes_percentEncode]
  exact utf8Decode_encode l

theorem hexDigitChar_ne_colon (n : Nat) : hexDigitChar n ≠ ':' := by
  by_cases h : n < 16
  · interval_cases n <;> decide
  · rw [hexDigitChar, List.getD_eq_default]
    · decide
    · simp
      omega

theorem colon_not_mem_percentEncode (l : List Char) : ':' ∉ percentEncode l := by
  intro hmem
  rw [percentEncode, List.mem_flatMap] at hmem
  obtain ⟨c, _, hx⟩ := hmem
  by_cases h : isUnreservedURI c
  · rw [percentEncodeChar, if_pos h] at hx
    simp at hx
    subst hx
    simp [isUnreservedURI] at h
  · rw [percentEncodeChar, if_neg h] at hx
    rw [List.mem_flatMap] at hx
    obtain ⟨b, _, hxb⟩ := hx
    rw [percentByte] at hxb
    rcases List.mem_cons.mp hxb with h1 | hxb2
    · exact absurd h1 (by decide)
    · rcases List.mem_cons.mp hxb2 with h2 | hxb3
      · exact (hexDigitChar_ne_colon _) h2.symm
      · rcases List.mem_cons.mp hxb3 with h3 | hxb4
        · exact (hexDigitChar_ne_colon _) h3.symm
        · simp at hxb4

/-! ## Lemmas about the stable sort of reactions -/

/-- The ordering invariant of the sorted reactions array. -/
def SortedByCountDesc (l : List ReactionSummary) : Prop :=
  l.Pairwise (fun a b => b.count ≤ a.count)

theorem insertReaction_perm (r : ReactionSummary) (l : List ReactionSummary) :
    (insertReaction r l).Perm (r :: l) := by
  induction l with
  | nil => rfl
  | cons x xs ih =>
    rw [insertReaction]
    split
    · rfl
    · exact (ih.cons x).trans (List.Perm.swap r x xs)

theorem sortReactions_perm (rs : List ReactionSummary) :
    (sortReactions rs).Perm rs := by
  induction rs with
  | nil => rfl
  | cons r rs2 ih =>
    exact (insertReaction_perm r (sortReactions rs2)).trans (ih.cons r)

theorem insertReaction_sorted (r : ReactionSummary) (l : List ReactionSummary)
    (hl : SortedByCountDesc l) : SortedByCountDesc (insertReaction r l) := by
  induction l with
  | nil => simp [insertReaction, SortedByCountDesc]
  | cons x xs ih =>
    rw [SortedByCountDesc, List.pairwise_cons] at hl
    obtain ⟨hx, hxs⟩ := hl
    rw [insertReaction]
    split
    · rename_i hcmp
      rw [SortedByCountDesc, List.pairwise_cons]
      refine ⟨?_, ?_⟩
      · intro y hy
        rcases List.mem_cons.mp hy with hy | hy
        · subst hy; exact hcmp
        · exact Nat.le_trans (hx y hy) hcmp
      · rw [SortedByCountDesc] at *
        exact List.pairwise_cons.mpr ⟨hx, hxs⟩
    · rename_i hcmp
      rw [SortedByCountDesc, List.pairwise_cons]
      refine ⟨?_, ih hxs⟩
      intro y hy
      rcases List.mem_cons.mp ((insertReaction_perm r xs).mem_iff.mp hy) with
        hy2 | hy2
      · subst hy2; omega
      · exact hx y hy2

theorem sortReactions_sorted (rs : List ReactionSummary) :
    SortedByCountDesc (sortReactions rs) := by
  induction rs with
  | nil => simp [sortReactions, SortedByCountDesc]
  | cons r rs2 ih => exact insertReaction_sorted r (sortReactions rs2) ih

theorem filter_insertReaction_ne (r : ReactionSummary)
    (l : List ReactionSummary) (c : Nat) (hr : ¬ r.count = c) :
    (insertReaction r l).filter (fun x => x.count == c) =
      l.filter (fun x => x.count == c) := by
  induction l with
  | nil => simp [insertReaction, hr]
  | cons x xs ih =>
    rw [insertReaction]
    split
    · simp [List.filter_cons, hr]
    · rw [List.filter_cons, List.filter_cons, ih]

theorem filter_insertReaction_eq (r : ReactionSummary)
    (l : List ReactionSummary) (c : Nat) (hr : r.count = c) :
    (insertReaction r l).filter (fun x => x.count == c) =
      r :: l.filter (fun x => x.count == c) := by
  induction l with
  | nil => simp [insertReaction, hr]
  | cons x xs ih =>
    rw [insertReaction]
    split
    · simp [List.filter_cons, hr]
    · rename_i hcmp
      have hx : ¬ (x.count == c) = true := by
        simp only [beq_iff_eq]
        omega
      rw [List.filter_cons, List.filter_cons]
      simp only [hx, if_neg, Bool.false_eq_true, ite_false, ih]

theorem sortReactions_stable (rs : List ReactionSummary) (c : Nat) :
    (sortReactions rs).filter (fun x => x.count == c) =
      rs.filter (fun x => x.count == c) := by
  induction rs with
  | nil => rfl
  | cons r rs2 ih =>
    rw [sortReactions]
    by_cases hr : r.count = c
    · rw [filter_insertReaction_eq r _ c hr, ih, List.filter_cons]
      simp [hr]
    · rw [filter_insertReaction_ne r _ c hr, ih, List.filter_cons]
      simp [hr]

theorem sortTruncate_length (rs : List ReactionSummary) :
    (sortTruncate rs).length = min 30 rs.length := by
  rw [sortTruncate, List.length_take, (sortReactions_perm rs).length_eq]

theorem sortTruncate_sorted (rs : List ReactionSummary) :
    SortedByCountDesc (sortTruncate rs) := by
  rw [sortTruncate]
  exact List.Pairwise.sublist (List.take_sublist 30 _) (sortReactions_sorted rs)

theorem sortTruncate_subperm (rs : List ReactionSummary) :
    (sortTruncate rs).Subperm rs := by
  rw [sortTruncate]
  exact List.Subperm.trans (List.take_sublist 30 _).subperm
    (sortReactions_perm rs).subperm

/-! ## Lemmas about the CSV builder and the aggregation join -/

theorem csvBuild_foldl (acc : List Char) (lines : List (List CellValue)) :
    lines.foldl csvAddLine acc = acc ++ lines.flatMap csvLine := by
  induction lines generalizing acc with
  | nil => simp
  | cons l ls ih =>
    rw [List.foldl_cons, List.flatMap_cons, ih, csvAddLine, List.append_assoc]

theorem csvBuild_flat (header : List CellValue) (lines : List (List CellValue)) :
    csvBuild (some header) lines = (header :: lines).flatMap csvLine := by
  rw [csvBuild, csvInit, csvBuild_foldl, List.flatMap_cons]

theorem csvLine_getLast (line : List CellValue) :
    (csvLine line).getLast? = some '\n' := by
  rw [csvLine, List.getLast?_concat]

theorem flatMap_csvLine_getLast (rows : List (List CellValue))
    (h : rows ≠ []) : (rows.flatMap csvLine).getLast? = some '\n' := by
  induction rows with
  | nil => exact absurd rfl h
  | cons l ls ih =>
    rw [List.flatMap_cons]
    by_cases hls : ls = []
    · subst hls
      simp [csvLine_getLast]
    · have h1 := ih hls
      have hne : ls.flatMap csvLine ≠ [] := by
        intro hc
        rw [hc] at h1
        simp at h1
      rw [List.getLast?_append_of_ne_nil _ hne, h1]

theorem count_doubleQuotes (l : List Char) :
    (doubleQuotes l).count '"' = 2 * l.count '"' := by
  induction l with
  | nil => rfl
  | cons c cs ih =>
    rw [doubleQuotes]
    split
    · rename_i hc
      subst hc
      simp [List.count_cons, ih]
      omega
    · rename_i hc
      rw [List.count_cons, List.count_cons, ih]
      simp [beq_iff_eq, hc]

theorem filter_doubleQuotes (l : List Char) :
    (doubleQuotes l).filter (fun c => ! (c == '"')) =
      l.filter (fun c => ! (c == '"')) := by
  induction l with
  | nil => rfl
  | cons c cs ih =>
    rw [doubleQuotes]
    split
    · rename_i hc
      subst hc
      simp [List.filter_cons, ih]
    · rename_i hc
      rw [List.filter_cons, List.filter_cons, ih]

/-- Truthy test for an ok fetch result. -/
def exceptIsOk {ε α : Type} : Except ε α → Bool
  | .ok _ => true
  | .error _ => false

theorem collectAll_error {α β : Type}
    (ps : List (α × Except JsError β))
    (h : ∃ p ∈ ps, exceptIsOk p.2 = false) :
    ∃ e, collectAll ps = .error e := by
  induction ps with
  | nil => simp at h
  | cons p rest ih =>
    rcases p with ⟨a, pe⟩
    rcases pe with e2 | v
    · exact ⟨e2, rfl⟩
    · obtain ⟨q, hq, hqe⟩ := h
      rcases List.mem_cons.mp hq with hq | hq
      · subst hq
        simp [exceptIsOk] at hqe
      · obtain ⟨e, he⟩ := ih ⟨q, hq, hqe⟩
        exact ⟨e, by simp [collectAll, he, Except.map]⟩

/-! ## Lemmas about the authenticator and middleware -/

theorem verifyKey_false_cases (crypto : List Nat → List Nat → List Nat → Bool)
    (rawBody : List Nat) (signature timestamp publicKey : List Char)
    (h : signature = [] ∨ timestamp = [] ∨ hexDecodePairs signature = none) :
    verifyKey crypto rawBody signature timestamp publicKey = false := by
  rw [verifyKey]
  rcases h with h | h | h
  · simp [h]
  · simp [h]
  · by_cases he : signature.isEmpty || timestamp.isEmpty
    · simp [he]
    · simp [he, h]

theorem verifyKey_false_of_crypto (crypto : List Nat → List Nat → List Nat → Bool)
    (rawBody : List Nat) (signature timestamp publicKey : List Char)
    (sig pk : List Nat)
    (hsig : hexDecodePairs signature = some sig)
    (hpk : hexDecodePairs publicKey = some pk)
    (hc : crypto pk sig (utf8Encode timestamp ++ rawBody) = false) :
    verifyKey crypto rawBody signature timestamp publicKey = false := by
  rw [verifyKey]
  by_cases he : signature.isEmpty || timestamp.isEmpty
  · simp [he]
  · simp [he, hsig, hpk, hc]

theorem discordMiddleware_missing_header
    (crypto : List Nat → List Nat → List Nat → Bool) (publicKey : List Char)
    (parse : List Nat → Option (Option Nat)) (req : InboundRequest)
    (h : req.sigHeader.getD [] = [] ∨ req.tsHeader.getD [] = []) :
    (discordMiddleware crypto publicKey parse req).result = .unauthorized ∧
    (discordMiddleware crypto publicKey parse req).verifyCalls =
      [(req.rawBody, req.sigHeader.getD [], req.tsHeader.getD [])] := by
  have hv : verifyKey crypto req.rawBody (req.sigHeader.getD [])
      (req.tsHeader.getD []) publicKey = false :=
    verifyKey_false_cases _ _ _ _ _
      (by rcases h with h | h
          · exact Or.inl h
          · exact Or.inr (Or.inl h))
  constructor <;> simp [discordMiddleware, hv]

theorem discordMiddleware_parse_failure
    (crypto : List Nat → List Nat → List Nat → Bool) (publicKey : List Char)
    (parse : List Nat → Option (Option Nat)) (req : InboundRequest)
    (hv : verifyKey crypto req.rawBody (req.sigHeader.getD [])
      (req.tsHeader.getD []) publicKey = true)
    (hp : parse req.rawBody = none) :
    (discordMiddleware crypto publicKey parse req).result = .routerError 500 := by
  simp [discordMiddleware, hv, hp]

/-! ## Claim C1 -/

/-- Claim C1, counterexample to the part stating that a request missing either
signature header is rejected without invoking cryptographic verification: on
a concrete request carrying neither signature header, discordMiddleware does
answer 401, but its recorded list of `server.verifyKey` invocations is
nonempty — the middleware substitutes empty strings for the missing headers
and always invokes the verifier. -/
theorem c1_counterexample :
    (discordMiddleware cryptoAccept ('0' :: '0' :: []) parseNone
      reqNoHeaders).result = .unauthorized ∧
    (discordMiddleware cryptoAccept ('0' :: '0' :: []) parseNone
      reqNoHeaders).verifyCalls ≠ [] := by
  constructor <;> decide

/-- Claim C1 as amended: verification fails closed — `verifyKey` returns
false (it is total, hence never throws) when the signature or timestamp
string is empty, when the signature hex cannot be decoded, and when the
public-key verification algorithm rejects the signature over the UTF-8
timestamp bytes followed by the raw body bytes; and every request missing
either signature header is rejected with the 401 result, with `verifyKey`
invoked exactly once on the empty-string defaults of the missing headers. -/
theorem c1_fail_closed :
    (∀ (crypto : List Nat → List Nat → List Nat → Bool) (rawBody : List Nat)
      (signature timestamp publicKey : List Char),
      signature = [] ∨ timestamp = [] ∨ hexDecodePairs signature = none →
        verifyKey crypto rawBody signature timestamp publicKey = false) ∧
    (∀ (crypto : List Nat → List Nat → List Nat → Bool) (rawBody : List Nat)
      (signature timestamp publicKey : List Char) (sig pk : List Nat),
      hexDecodePairs signature = some sig →
      hexDecodePairs publicKey = some pk →
      crypto pk sig (utf8Encode timestamp ++ rawBody) = false →
        verifyKey crypto rawBody signature timestamp publicKey = false) ∧
    (∀ (crypto : List Nat → List Nat → List Nat → Bool) (publicKey : List Char)
      (parse : List Nat → Option (Option Nat)) (req : InboundRequest),
      req.sigHeader.getD [] = [] ∨ req.tsHeader.getD [] = [] →
      (discordMiddleware crypto publicKey parse req).result = .unauthorized ∧
      (discordMiddleware crypto publicKey parse req).verifyCalls =
        [(req.rawBody, req.sigHeader.getD [], req.tsHeader.getD [])]) :=
  ⟨verifyKey_false_cases, verifyKey_false_of_crypto,
    discordMiddleware_missing_header⟩

/-- Witness for C1: the fail-closed behavior and the 401-with-invocation
behavior at concrete inputs. -/
theorem c1_witness :
    verifyKey cryptoAccept [] [] ('1' :: []) ('0' :: '0' :: []) = false ∧
    (discordMiddleware cryptoAccept ('0' :: '0' :: []) parseNone
      reqNoHeaders).result = .unauthorized :=
  ⟨c1_fail_closed.1 cryptoAccept [] [] ('1' :: []) ('0' :: '0' :: [])
      (Or.inl rfl),
    (c1_fail_closed.2.2 cryptoAccept ('0' :: '0' :: []) parseNone reqNoHeaders
      (Or.inl rfl)).1⟩

/-! ## Claim C5 -/

/-- Claim C5, counterexample to the 4xx part: on a concrete request whose
signature verifies but whose body fails to parse, the middleware throw is
converted by the router catch handler into a status 500 response — which is
not a 4xx status — while remaining distinct from the 401 signature-failure
result. -/
theorem c5_counterexample :
    (discordMiddleware cryptoAccept ('0' :: '0' :: []) parseNone
      reqSigned).result = .routerError 500 ∧
    is4xx 500 = false ∧
    (MwResult.routerError 500 ≠ MwResult.unauthorized) := by
  refine ⟨by decide, by decide, by decide⟩

/-- Claim C5 as amended: for every request whose signature verifies but whose
body is not parseable, the response is the router catch-all error response
with status 500 — a distinct category from (and never equal to) the 401
signature-verification failure — rather than a 4xx. -/
theorem c5_parse_failure_distinct
    (crypto : List Nat → List Nat → List Nat → Bool) (publicKey : List Char)
    (parse : List Nat → Option (Option Nat)) (req : InboundRequest)
    (hv : verifyKey crypto req.rawBody (req.sigHeader.getD [])
      (req.tsHeader.getD []) publicKey = true)
    (hp : parse req.rawBody = none) :
    (discordMiddleware crypto publicKey parse req).result = .routerError 500 ∧
    (discordMiddleware crypto publicKey parse req).result ≠ .unauthorized ∧
    is4xx 500 = false := by
  have h1 := discordMiddleware_parse_failure crypto publicKey parse req hv hp
  refine ⟨h1, ?_, by decide⟩
  rw [h1]
  intro hc
  cases hc

/-- Witness for C5: a concrete request with an accepted signature and an
unparseable body lands in the 500 router error. -/
theorem c5_witness :
    verifyKey cryptoAccept (reqSigned.rawBody) (reqSigned.sigHeader.getD [])
      (reqSigned.tsHeader.getD []) ('0' :: '0' :: []) = true ∧
    (discordMiddleware cryptoAccept ('0' :: '0' :: []) parseNone
      reqSigned).result = .routerError 500 :=
  ⟨by decide,
    (c5_parse_failure_distinct cryptoAccept ('0' :: '0' :: []) parseNone
      reqSigned (by decide) rfl).1⟩

/-! ## Claim C2 -/

/-- Claim C2: whenever at least one of the per-emoji fetches of an
aggregation run rejects, the handler returns the fixed ephemeral failure
message and in particular never returns the modal containing a table built
from the fetches that succeeded. -/
theorem c2_fetch_failure_collapses
    (fetchFn : EmojiDescriptor → Except JsError (List UserRef))
    (d : InteractionData) (m : MessagePayload) (rs : List ReactionSummary)
    (hm : lookupMessage d = some m) (hr : m.reactions = some rs)
    (hfail : ∃ r ∈ sortTruncate rs, exceptIsOk (fetchFn r.emoji) = false) :
    (reactionCsvCase fetchFn d).output =
      .channelMessage somethingWentWrong true ∧
    ∀ content, (reactionCsvCase fetchFn d).output ≠ .modal content := by
  rcases rs with _ | ⟨r0, rs0⟩
  · simp [sortTruncate, sortReactions] at hfail
  · obtain ⟨e, he⟩ := collectAll_error
      ((sortTruncate (r0 :: rs0)).map (fun x =>
        (readableEmojiKey x.emoji, fetchFn x.emoji)))
      (by
        obtain ⟨r, hrm, hre⟩ := hfail
        exact ⟨(readableEmojiKey r.emoji, fetchFn r.emoji),
          List.mem_map_of_mem _ hrm, hre⟩)
    constructor
    · simp only [reactionCsvCase, hm, hr, he]
    · intro content
      simp only [reactionCsvCase, hm, hr, he]
      intro hcon
      cases hcon

/-- Witness for C2: with two reactions where exactly the fetch for emoji b
rejects, the handler output is the fixed failure message. -/
theorem c2_witness :
    (reactionCsvCase fetchFailB dAB).output =
      .channelMessage somethingWentWrong true :=
  (c2_fetch_failure_collapses fetchFailB dAB
    { reactions := some [rA, rB] } [rA, rB] (by decide) rfl
    ⟨rB, by decide, by decide⟩).1

/-! ## Claim C3 -/

/-- Claim C3: the aggregation sorts the reactions by count descending with
stable ties — the sorted array is pairwise descending, is a permutation of
the input, and filtering by any fixed count value preserves the original
order — and then truncates to the first 30; on the concrete 34 synthetic
reactions with counts 1..34 the handler output is the modal whose CSV holds
exactly the 30 expected data rows, the surviving counts are 34 down to 5,
the first surviving count is 34 and the last is 5. -/
theorem c3_sort_truncate :
    (∀ rs : List ReactionSummary,
      SortedByCountDesc (sortTruncate rs) ∧
      (sortTruncate rs).length = min 30 rs.length ∧
      (sortReactions rs).Perm rs ∧
      sortTruncate rs = (sortReactions rs).take 30 ∧
      ∀ c : Nat, (sortReactions rs).filter (fun x => x.count == c) =
        rs.filter (fun x => x.count == c)) ∧
    (reactionCsvCase fetchOne d34).output =
      .modal (csvBuild (some csvHeader) expectedRows34) ∧
    (sortTruncate input34).map (fun r => r.count) =
      (List.range 30).map (fun k => 34 - k) ∧
    (sortTruncate input34).length = 30 ∧
    ((sortTruncate input34).head?.map (fun r => r.count) = some 34 ∧
      (sortTruncate input34).getLast?.map (fun r => r.count) = some 5) := by
  refine ⟨fun rs => ⟨sortTruncate_sorted rs, sortTruncate_length rs,
    sortReactions_perm rs, rfl, fun c => sortReactions_stable rs c⟩,
    ?_, ?_, ?_, ?_, ?_⟩
  · decide
  · decide
  · decide
  · decide
  · decide

/-! ## Claim C4 -/

/-- Claim C4, settled as a code bug: the fetch has the two failure modes of a
propagated transport rejection and of a non-ok response converted into an
error carrying the status code and the body text, but the third claimed mode
is absent from the code — a falsy response is not given its own falsy
response error category; instead the not-ok branch runs and raises a
TypeError whose message never mentions the word falsy, although the
repository test suite asserts a rejection matching the falsy regex for
exactly this input. -/
theorem c4_fetch_failure_modes :
    (∀ e : JsError, fetcherFetch (.reject e) = .error e) ∧
    fetcherFetch (.resolve (some resp404)) =
      .error (.thrown (httpErrorMessage 404 "sekrit".data)) ∧
    fetcherFetch (.resolve none) = .error (.typeError resTextNotAFunction) ∧
    (∀ (status : Nat) (body : List Char), fetcherFetch (.resolve none) ≠
      .error (.thrown (httpErrorMessage status body))) ∧
    mentionsFalsy (jsErrorMessage (.typeError resTextNotAFunction)) = false := by
  refine ⟨fun e => rfl, rfl, rfl, ?_, by decide⟩
  intro status body hc
  rw [fetcherFetch] at hc
  injection hc with hc2
  cases hc2

/-! ## Claim C6 -/

/-- Claim C6: csvQuote stringifies the value, leaves it verbatim when it
contains none of double quote, comma and line feed — in particular a
whitespace-only cell and a single-quote cell stay unquoted — and otherwise
wraps the whole cell in double quotes with every embedded double quote
doubled: the number of quote characters doubles while all other characters
are preserved in order. -/
theorem c6_csv_quote :
    (∀ l : List Char, testSpecial l = false → csvQuote l = l) ∧
    (∀ l : List Char, testSpecial l = true →
      csvQuote l = '"' :: doubleQuotes l ++ ['"'] ∧
      (doubleQuotes l).count '"' = 2 * l.count '"' ∧
      (doubleQuotes l).filter (fun c => ! (c == '"')) =
        l.filter (fun c => ! (c == '"'))) ∧
    csvQuote " ".data = " ".data ∧
    csvQuote [Char.ofNat 39] = [Char.ofNat 39] ∧
    csvQuoteCell (.num 5) = "5".data ∧
    csvQuoteCell .obj = "[object Object]".data ∧
    csvQuote "a\"b".data = "\"a\"\"b\"".data ∧
    csvQuote "a,b".data = "\"a,b\"".data ∧
    csvQuote "a\nb".data = ('"' :: 'a' :: '\n' :: 'b' :: '"' :: []) := by
  refine ⟨?_, ?_, by decide, by decide, by decide, by decide, by decide,
    by decide, by decide⟩
  · intro l h
    simp [csvQuote, h]
  · intro l h
    exact ⟨by simp [csvQuote, h], count_doubleQuotes l, filter_doubleQuotes l⟩

/-- Witness for C6: the implications at concrete inputs. -/
theorem c6_witness :
    csvQuote "ab".data = "ab".data ∧
    csvQuote "a\"b".data = '"' :: doubleQuotes "a\"b".data ++ ['"'] :=
  ⟨c6_csv_quote.1 "ab".data (by decide),
    (c6_csv_quote.2.1 "a\"b".data (by decide)).1⟩

/-! ## Claim C7 -/

/-- Claim C7: for every well-formed descriptor with no id (the data model
invariant makes such a descriptor non-animated), the encoded key contains no
colon at all — in particular no colon-separated id suffix — and
percent-decoding the encoded key recovers the name exactly. -/
theorem c7_no_id_roundtrip (e : EmojiDescriptor) (hid : e.id = none)
    (hanim : e.animated = false) :
    ':' ∉ encodedEmojiKey e ∧
    percentDecode (encodedEmojiKey e) = some e.name := by
  have hk : encodedEmojiKey e = percentEncode e.name := by
    rw [encodedEmojiKey, hid, hanim]
    simp
  rw [hk]
  exact ⟨colon_not_mem_percentEncode e.name, percentDecode_percentEncode e.name⟩

/-- Witness for C7: a concrete id-less descriptor whose name holds a space
and an astral-plane glyph. -/
theorem c7_witness :
    ':' ∉ encodedEmojiKey sampleEmoji ∧
    percentDecode (encodedEmojiKey sampleEmoji) = some sampleEmoji.name :=
  c7_no_id_roundtrip sampleEmoji rfl rfl

/-! ## Claim C8 -/

/-- Claim C8: the built document is exactly the concatenation of the rendered
rows, header first; every rendered row is its comma-joined quoted cells
followed by a single line feed, so every row is terminated by one line feed
and the document always ends with a line feed after the last row; and the
empty builder with header a, b yields the single header line. -/
theorem c8_csv_builder :
    (∀ (header : List CellValue) (lines : List (List CellValue)),
      csvBuild (some header) lines = (header :: lines).flatMap csvLine) ∧
    (∀ line : List CellValue,
      csvLine line = List.intercalate [','] (line.map csvQuoteCell) ++ ['\n'] ∧
      (csvLine line).getLast? = some '\n') ∧
    (∀ (header : List CellValue) (lines : List (List CellValue)),
      (csvBuild (some header) lines).getLast? = some '\n') ∧
    csvBuild (some [.str ('a' :: []), .str ('b' :: [])]) [] = "a,b\n".data := by
  refine ⟨csvBuild_flat, fun line => ⟨rfl, csvLine_getLast line⟩, ?_, by decide⟩
  intro header lines
  rw [csvBuild_flat]
  exact flatMap_csvLine_getLast _ (by simp)

/-! ## Claim C9 -/

/-- Claim C9, counterexample: the engine does not leave the message payload
reactions list unchanged — on a concrete message whose reactions arrived in
ascending count order, the reactions array after the handler ran is the
reordered, sorted array, not the original. -/
theorem c9_counterexample :
    (reactionCsvCase fetchOne dAB).finalReactions ≠ some [rA, rB] ∧
    (reactionCsvCase fetchOne dAB).finalReactions = some [rB, rA] := by
  constructor <;> decide

/-- Claim C9 as amended: the engine sorts and truncates the message payload
reactions array in place — after the handler runs on a message with a
nonempty reactions array, that array equals the sorted-descending,
truncated-to-30 version of the original — while the reaction entries
themselves are preserved: the final array is a sub-permutation of the
original and every surviving entry is one of the original entries,
unmodified. -/
theorem c9_inplace_mutation
    (fetchFn : EmojiDescriptor → Except JsError (List UserRef))
    (d : InteractionData) (m : MessagePayload)
    (r0 : ReactionSummary) (rs0 : List ReactionSummary)
    (hm : lookupMessage d = some m) (hr : m.reactions = some (r0 :: rs0)) :
    (reactionCsvCase fetchFn d).finalReactions =
      some (sortTruncate (r0 :: rs0)) ∧
    (sortTruncate (r0 :: rs0)).Subperm (r0 :: rs0) ∧
    ∀ x ∈ sortTruncate (r0 :: rs0), x ∈ r0 :: rs0 := by
  refine ⟨?_, sortTruncate_subperm _, fun x hx =>
    (sortTruncate_subperm _).subset hx⟩
  rcases hcol : collectAll ((sortTruncate (r0 :: rs0)).map (fun x =>
      (readableEmojiKey x.emoji, fetchFn x.emoji))) with e | pairs <;>
    simp only [reactionCsvCase, hm, hr, hcol]

/-- Witness for C9: the concrete two-reaction message, whose final reactions
array is the sorted version of the original. -/
theorem c9_witness :
    (reactionCsvCase fetchOne dAB).finalReactions =
      some (sortTruncate [rA, rB]) :=
  (c9_inplace_mutation fetchOne dAB { reactions := some [rA, rB] } rA [rB]
    (by decide) rfl).1

/-! ## Claim C10 -/

/-- Claim C10: whenever the target message cannot be resolved from the
interaction payload — the resolved map or the target id is missing, or the
lookup misses — or the resolved message has no reactions field or an empty
one, the handler behaves exactly as the zero-reactions case: it returns the
fixed ephemeral no-reactions response and starts no upstream fetch. -/
theorem c10_no_message_no_fetch
    (fetchFn : EmojiDescriptor → Except JsError (List UserRef))
    (d : InteractionData)
    (h : lookupMessage d = none ∨
      ∃ m, lookupMessage d = some m ∧
        (m.reactions = none ∨ m.reactions = some [])) :
    ((reactionCsvCase fetchFn d).output =
        .channelMessage noReactionsContent true ∧
      (reactionCsvCase fetchFn d).fetchedEmojis = []) ∧
    (∀ d2 : InteractionData, d2.resolved = none → lookupMessage d2 = none) ∧
    (∀ d2 : InteractionData, d2.targetId = none → lookupMessage d2 = none) := by
  refine ⟨?_, ?_, ?_⟩
  · rcases h with h | ⟨m, hm, h⟩
    · constructor <;> simp only [reactionCsvCase, h]
    · rcases h with h | h <;> constructor <;>
        simp only [reactionCsvCase, hm, h]
  · intro d2 h2
    rw [lookupMessage, h2]
  · intro d2 h2
    rw [lookupMessage]
    rcases hres : d2.resolved with _ | msgs
    · rfl
    · rw [h2]

/-- Witness for C10: concrete interaction data with no resolved map yields
the no-reactions response and an empty fetch trace. -/
theorem c10_witness :
    (reactionCsvCase fetchOne dNoResolved).output =
      .channelMessage noReactionsContent true ∧
    (reactionCsvCase fetchOne dNoResolved).fetchedEmojis = [] :=
  (c10_no_message_no_fetch fetchOne dNoResolved (Or.inl (by decide))).1

end ReactionCsvBot
